import Mathlib

/-!
Shallow embedding of the memory-pdf image-transform and page-layout engine.

Sources embedded (TypeScript): the two-template App variant (`handleExportPdf`,
`renderCroppedImage`, `handleCropUpdate`, `handleExportProject`,
`handleImportProject`, `mmToPx`, `mmToPt`, `layoutConfig`) together with the
shared `types.ts` data model.  JavaScript numbers are modelled as `ℚ`,
`Math.round` as `fun q => ⌊q + 1/2⌋`, blobs as byte lists, and the
asynchronous / DOM-effectful parts (canvas contexts, image decoding, PNG
encoding) as explicit `Except` results or oracle parameters.
-/

namespace MemoryPdf

/-- JavaScript `Math.round` on the rational model of JS numbers:
rounds half toward positive infinity. -/
def jsRound (q : ℚ) : ℤ := ⌊q + 1/2⌋

/-- `const dpi = 300` — the fixed rasterization density. -/
def dpi : ℚ := 300

/-- `function mmToPx(mm) { return Math.round((mm / 25.4) * dpi); }` -/
def mmToPx (mm : ℚ) : ℤ := jsRound (mm / (254/10) * dpi)

/-- `function mmToPt(mm) { return (mm / 25.4) * 72; }` -/
def mmToPt (mm : ℚ) : ℚ := mm / (254/10) * 72

/-- `type LayoutOption = 6 | 12` of the two-template variant. -/
inductive LayoutOption where
  | l6
  | l12
deriving DecidableEq, Repr

/-- Numeric value of a layout option, as stored in JSON. -/
def LayoutOption.toNat : LayoutOption → ℕ
  | .l6 => 6
  | .l12 => 12

/-- `const layoutValue: LayoutOption = 6` — the constant default layout. -/
def layoutValue : LayoutOption := .l6

/-- One entry of `layoutConfig`. -/
structure LayoutConfigEntry where
  label : String
  pageWidthMm : ℚ
  pageHeightMm : ℚ
  cardSizeMm : ℚ
  rows : ℕ
  cols : ℕ
  stripWidthMm : ℚ
deriving DecidableEq, Repr

/-- The `layoutConfig` record of the two-template variant. -/
def layoutConfig : LayoutOption → LayoutConfigEntry
  | .l6 =>
    { label := "6 Karten (2x3) + Streifen 12mm"
      pageWidthMm := 210
      pageHeightMm := 297
      cardSizeMm := 99
      rows := 3
      cols := 2
      stripWidthMm := 12 }
  | .l12 =>
    { label := "12 Karten (4x3) A4 quer + Streifen 17mm"
      pageWidthMm := 297
      pageHeightMm := 210
      cardSizeMm := 70
      rows := 3
      cols := 4
      stripWidthMm := 17 }

/-- `const layoutOptions = Object.keys(layoutConfig)...` (numeric keys in
ascending order). -/
def layoutOptions : List LayoutOption := [.l6, .l12]

/-- `function isLayoutOption(value) { return layoutOptions.includes(value); }` -/
def isLayoutOption (value : LayoutOption) : Bool :=
  layoutOptions.contains value

/-- `CropAreaPixels` — a crop rectangle in source pixel space. -/
structure CropAreaPixels where
  x : ℚ
  y : ℚ
  width : ℚ
  height : ℚ
deriving DecidableEq, Repr

/-- `ImageCrop` — crop state of one image; `cropAreaPixels` is the optional
resolved rectangle reported by the interactive widget. -/
structure ImageCrop where
  x : ℚ
  y : ℚ
  zoom : ℚ
  rotation : ℚ
  cropAreaPixels : Option CropAreaPixels := none
deriving DecidableEq, Repr

/-- `const defaultCrop: ImageCrop = { x: 0, y: 0, zoom: 1, rotation: 0 }` -/
def defaultCrop : ImageCrop := { x := 0, y := 0, zoom := 1, rotation := 0 }

/-- A blob is modelled as its byte sequence. -/
def Blob := List ℕ
deriving DecidableEq

/-- Byte length of a blob (`blob.size`). -/
def Blob.size (b : Blob) : ℕ := List.length b

/-- `ProjectImage` from `types.ts`. -/
structure ProjectImage where
  id : String
  name : String
  type : String
  size : ℕ
  blob : Blob
  crop : Option ImageCrop := none
deriving DecidableEq

/-- `Project` from `types.ts`. -/
structure Project where
  id : String
  name : String
  createdAt : String
  note : String
  layout : LayoutOption
  images : List ProjectImage
deriving DecidableEq

/-- `Partial<ImageCrop>` — a crop patch; `none` means the key is absent. -/
structure CropPatch where
  x : Option ℚ := none
  y : Option ℚ := none
  zoom : Option ℚ := none
  rotation : Option ℚ := none
  cropAreaPixels : Option CropAreaPixels := none
deriving DecidableEq, Repr

/-- The spread `{ ...defaultCrop, ...image.crop, ...cropUpdate }` of
`handleCropUpdate`: defaults, overridden by the existing crop when present,
overridden by the fields present in the patch. -/
def mergeCrop (existing : Option ImageCrop) (patch : CropPatch) : ImageCrop :=
  let base := existing.getD defaultCrop
  { x := patch.x.getD base.x
    y := patch.y.getD base.y
    zoom := patch.zoom.getD base.zoom
    rotation := patch.rotation.getD base.rotation
    cropAreaPixels :=
      match patch.cropAreaPixels with
      | some rect => some rect
      | none => base.cropAreaPixels }

/-- `handleCropUpdate(id, cropUpdate)` — the pure state transition applied to
the current project by `setProject`. -/
def handleCropUpdate (project : Project) (id : String) (cropUpdate : CropPatch) :
    Project :=
  { project with
    images := project.images.map fun image =>
      if image.id = id then
        { image with crop := some (mergeCrop image.crop cropUpdate) }
      else
        image }

/-- `const pairedImages = project.images.flatMap((image) => [image, image])` —
the duplicated working sequence. -/
def pairedImages (images : List ProjectImage) : List ProjectImage :=
  images.flatMap fun image => [image, image]

/-- Fuel-driven slicing of a list into consecutive chunks of `k`
(the `for (let index = 0; index < pairedImages.length; index += cardsPerPage)`
loop of `handleExportPdf`).  One unit of fuel per loop iteration; the caller
supplies fuel `l.length`, which suffices whenever `k ≠ 0`, exactly as the
source loop terminates because `cardsPerPage ≥ 1`. -/
def chunksAux (k : ℕ) : ℕ → List α → List (List α)
  | _, [] => []
  | 0, _ :: _ => []
  | fuel + 1, x :: xs => (x :: xs).take k :: chunksAux k fuel ((x :: xs).drop k)

/-- Slices `l` into consecutive chunks of `k`, the last chunk possibly
shorter. -/
def chunks (k : ℕ) (l : List α) : List (List α) := chunksAux k l.length l

/-- One planned cell of a page: the source image reference, the logical grid
cell, and the physical top-left in millimetres as computed by
`handleExportPdf` (`xMm = col * cardSizeMm`,
`yMm = (layoutRows - 1 - row) * cardSizeMm`). -/
structure CellAssignment where
  image : ProjectImage
  row : ℕ
  col : ℕ
  xMm : ℚ
  yMm : ℚ
deriving DecidableEq

/-- The body of the inner `for (let cardIndex = ...)` loop of
`handleExportPdf`, restricted to its pure geometry. -/
def placeCard (cfg : LayoutConfigEntry) (cardIndex : ℕ) (image : ProjectImage) :
    CellAssignment :=
  let row := cardIndex / cfg.cols
  let col := cardIndex % cfg.cols
  { image := image
    row := row
    col := col
    xMm := (col : ℚ) * cfg.cardSizeMm
    yMm := (((cfg.rows : ℤ) - 1 - (row : ℤ) : ℤ) : ℚ) * cfg.cardSizeMm }

/-- Plans one page slice, assigning consecutive card indices starting at
`idx`. -/
def planCells (cfg : LayoutConfigEntry) (idx : ℕ) :
    List ProjectImage → List CellAssignment
  | [] => []
  | image :: rest => placeCard cfg idx image :: planCells cfg (idx + 1) rest

/-- Plans one page: card indices run from `0` within the slice. -/
def planPage (cfg : LayoutConfigEntry) (slice : List ProjectImage) :
    List CellAssignment :=
  planCells cfg 0 slice

/-- The full page plan of `handleExportPdf`: the duplicated sequence is sliced
into chunks of `cardsPerPage = rows * cols` and each chunk becomes one page of
cell assignments. -/
def buildPagePlan (cfg : LayoutConfigEntry) (images : List ProjectImage) :
    List (List CellAssignment) :=
  (chunks (cfg.rows * cfg.cols) (pairedImages images)).map (planPage cfg)

/-- The error kinds a per-tile rendering step can raise: no 2D canvas
context, source image decode failure, or PNG encode (`toBlob`) failure. -/
inductive RenderError where
  | renderingUnavailable
  | imageDecodeFailed
  | imageEncodeFailed
deriving DecidableEq, Repr

/-- A raster: a pixel grid with explicit dimensions.  Pixel values are
abstract numbers. -/
structure Raster where
  width : ℕ
  height : ℕ
  pixel : ℕ → ℕ → ℕ

/-- One image drawn onto a PDF page by `page.drawImage`: the embedded raster
and its document-unit placement. -/
structure DrawnImage where
  png : Raster
  x : ℚ
  y : ℚ
  width : ℚ
  height : ℚ

/-- One output page: `pdfDoc.addPage([mmToPt(pageWidthMm), mmToPt(pageHeightMm)])`
plus its drawn images, in insertion order. -/
structure PdfPage where
  widthPt : ℚ
  heightPt : ℚ
  images : List DrawnImage

/-- The assembled output document: pages in insertion order. -/
abbrev PdfDoc := List PdfPage

/-- Renders and places one cell: awaits `renderCroppedImage` (abstracted as
the `render` oracle), then records the `page.drawImage` call with
document-unit coordinates.  A rendering error propagates. -/
def renderCell (render : ProjectImage → ℤ → Except RenderError Raster)
    (cardSizePx : ℤ) (cardSizeMm : ℚ) (a : CellAssignment) :
    Except RenderError DrawnImage :=
  match render a.image cardSizePx with
  | .error e => .error e
  | .ok raster =>
    .ok
      { png := raster
        x := mmToPt a.xMm
        y := mmToPt a.yMm
        width := mmToPt cardSizeMm
        height := mmToPt cardSizeMm }

/-- Sequential rendering of one page's cells, in plan order; the first error
aborts the rest, as an uncaught rejection aborts the `for` loop. -/
def renderCells (render : ProjectImage → ℤ → Except RenderError Raster)
    (cardSizePx : ℤ) (cardSizeMm : ℚ) :
    List CellAssignment → Except RenderError (List DrawnImage)
  | [] => .ok []
  | a :: rest =>
    match renderCell render cardSizePx cardSizeMm a with
    | .error e => .error e
    | .ok d =>
      match renderCells render cardSizePx cardSizeMm rest with
      | .error e => .error e
      | .ok ds => .ok (d :: ds)

/-- Sequential assembly of all pages, in plan order. -/
def renderPages (render : ProjectImage → ℤ → Except RenderError Raster)
    (cardSizePx : ℤ) (cfg : LayoutConfigEntry) :
    List (List CellAssignment) → Except RenderError PdfDoc
  | [] => .ok []
  | page :: rest =>
    match renderCells render cardSizePx cfg.cardSizeMm page with
    | .error e => .error e
    | .ok ds =>
      match renderPages render cardSizePx cfg rest with
      | .error e => .error e
      | .ok pages =>
        .ok
          ({ widthPt := mmToPt cfg.pageWidthMm
             heightPt := mmToPt cfg.pageHeightMm
             images := ds } :: pages)

/-- `handleExportPdf`: `none` when the image list is empty (the guard returns
without doing anything); otherwise the outcome of building and rendering the
full page plan — either the assembled document or the first rendering error,
which escapes the `try`/`finally` uncaught so that no document is saved or
offered for download. -/
def handleExportPdf (render : ProjectImage → ℤ → Except RenderError Raster)
    (project : Project) : Option (Except RenderError PdfDoc) :=
  if project.images = [] then none
  else
    let cfg := layoutConfig project.layout
    let cardSizePx := mmToPx cfg.cardSizeMm
    some (renderPages render cardSizePx cfg (buildPagePlan cfg project.images))

/-- The crop-rectangle resolution of `renderCroppedImage`:
`image.crop?.cropAreaPixels ?? (() => { ...largest centered square... })()`.
`w, h` are the decoded image's natural pixel dimensions. -/
def resolveCropAreaPixels (w h : ℚ) (crop : Option ImageCrop) : CropAreaPixels :=
  match crop.bind (·.cropAreaPixels) with
  | some rect => rect
  | none =>
    let minSize := min w h
    { x := (w - minSize) / 2
      y := (h - minSize) / 2
      width := minSize
      height := minSize }

/-- `const rotation = image.crop?.rotation ?? 0` of `renderCroppedImage`. -/
def resolveRotation (crop : Option ImageCrop) : ℚ := crop.getD defaultCrop |>.rotation

/-- Pixel value of an untouched (transparent) output-canvas pixel. -/
def backgroundPixel : ℕ := 0

/-- The second `drawImage` call of `renderCroppedImage`: samples the
`cropAreaPixels` sub-rectangle of the intermediate (rotated) canvas and scales
it onto a fresh `outputSizePx × outputSizePx` canvas.  Sampling outside the
source canvas, or from a non-positive-area source rectangle, draws nothing —
the canvas API clips rather than throws — leaving the background pixel. -/
def cropAndScale (canvas : Raster) (rect : CropAreaPixels) (outputSizePx : ℕ) :
    Raster :=
  { width := outputSizePx
    height := outputSizePx
    pixel := fun i j =>
      let u : ℚ := rect.x + (i : ℚ) * rect.width / (outputSizePx : ℚ)
      let v : ℚ := rect.y + (j : ℚ) * rect.height / (outputSizePx : ℚ)
      if 0 < rect.width ∧ 0 < rect.height ∧
          0 ≤ u ∧ u < (canvas.width : ℚ) ∧ 0 ≤ v ∧ v < (canvas.height : ℚ) then
        canvas.pixel ⌊u⌋.toNat ⌊v⌋.toNat
      else
        backgroundPixel }

/-- `renderCroppedImage` with its environment made explicit: `decoded` is the
result of `createImage` (`none` = decode failure), `ctxAvailable` is whether
`canvas.getContext("2d")` succeeds, `rotated` abstracts the intermediate
rotated-canvas draw (its trigonometric bounding box is not needed by any
claim), and `encodeOk` is whether `outputCanvas.toBlob` produces a blob. -/
def renderCroppedImage (decoded : Option Raster) (ctxAvailable : Bool)
    (rotated : Raster → ℚ → Raster) (encodeOk : Bool)
    (crop : Option ImageCrop) (outputSizePx : ℕ) : Except RenderError Raster :=
  match decoded with
  | none => .error .imageDecodeFailed
  | some img =>
    if ctxAvailable then
      let rect := resolveCropAreaPixels (img.width : ℚ) (img.height : ℚ) crop
      let canvas := rotated img (resolveRotation crop)
      let output := cropAndScale canvas rect outputSizePx
      if encodeOk then .ok output else .error .imageEncodeFailed
    else .error .renderingUnavailable

/-- `ExportedProjectImage` of the JSON project export; `data` holds the
base64 payload, modelled by the byte sequence it encodes. -/
structure ExportedProjectImage where
  id : String
  name : String
  type : String
  crop : Option ImageCrop
  data : List ℕ
deriving DecidableEq

/-- `ExportedProject` of the JSON project export. -/
structure ExportedProject where
  id : String
  name : String
  createdAt : String
  note : String
  layout : LayoutOption
  images : List ExportedProjectImage
deriving DecidableEq

/-- `blobToBase64`, modelled as the byte sequence the base64 string encodes. -/
def blobToBase64 (blob : Blob) : List ℕ := blob

/-- `base64ToBlob`, the inverse decoding. -/
def base64ToBlob (data : List ℕ) (_type : String) : Blob := data

/-- `handleExportProject`: serializes the current project.  Note that the
`layout` field is written from the module-level constant `layoutValue`, not
from `project.layout`. -/
def handleExportProject (project : Project) : ExportedProject :=
  { id := project.id
    name := project.name
    createdAt := project.createdAt
    note := project.note
    layout := layoutValue
    images := project.images.map fun image =>
      { id := image.id
        name := image.name
        type := image.type
        crop := image.crop
        data := blobToBase64 image.blob } }

/-- `handleImportProject` on an already-parsed `ExportedProject`. -/
def handleImportProject (imported : ExportedProject) : Project :=
  { id := imported.id
    name := imported.name
    createdAt := imported.createdAt
    note := imported.note
    layout := if isLayoutOption imported.layout then imported.layout else layoutValue
    images := imported.images.map fun image =>
      let blob := base64ToBlob image.data image.type
      { id := image.id
        name := image.name
        type := image.type
        size := blob.size
        blob := blob
        crop := image.crop } }

/-! ### Helper lemmas -/

theorem chunksAux_nil {α : Type} (k fuel : ℕ) : chunksAux k fuel ([] : List α) = [] := by
  cases fuel <;> rfl

theorem chunksAux_cons {α : Type} (k fuel : ℕ) (x : α) (xs : List α) :
    chunksAux k (fuel + 1) (x :: xs) =
      (x :: xs).take k :: chunksAux k fuel ((x :: xs).drop k) := rfl

theorem chunksAux_join {α : Type} (k fuel : ℕ) (hk : k ≠ 0) (l : List α)
    (hf : l.length ≤ fuel) : (chunksAux k fuel l).flatten = l := by
  induction fuel generalizing l with
  | zero =>
    cases l with
    | nil => simp [chunksAux_nil]
    | cons x xs => simp at hf
  | succ fuel ih =>
    cases l with
    | nil => simp [chunksAux_nil]
    | cons x xs =>
      have hf' : ((x :: xs).drop k).length ≤ fuel := by
        simp only [List.length_drop, List.length_cons]
        simp only [List.length_cons] at hf
        omega
      rw [chunksAux_cons, List.flatten, ih ((x :: xs).drop k) hf']
      exact List.take_append_drop k (x :: xs)

theorem chunks_join {α : Type} (k : ℕ) (hk : k ≠ 0) (l : List α) :
    (chunks k l).flatten = l :=
  chunksAux_join k l.length hk l le_rfl

theorem nat_ceil_div_shift (n k : ℕ) (hk : k ≠ 0) (hn : n ≠ 0) :
    (n + k - 1) / k = (n - 1) / k + 1 := by
  have h : n + k - 1 = (n - 1) + k := by omega
  rw [h, Nat.add_div_right _ (Nat.pos_of_ne_zero hk)]

theorem chunksAux_length {α : Type} (k fuel : ℕ) (hk : k ≠ 0) (l : List α)
    (hf : l.length ≤ fuel) :
    (chunksAux k fuel l).length = (l.length + k - 1) / k := by
  induction fuel generalizing l with
  | zero =>
    cases l with
    | nil => simp [chunksAux_nil, Nat.div_eq_of_lt (show k - 1 < k by omega)]
    | cons x xs => simp at hf
  | succ fuel ih =>
    cases l with
    | nil => simp [chunksAux_nil, Nat.div_eq_of_lt (show k - 1 < k by omega)]
    | cons x xs =>
      have hf' : ((x :: xs).drop k).length ≤ fuel := by
        simp only [List.length_drop, List.length_cons]
        simp only [List.length_cons] at hf
        omega
      rw [chunksAux_cons]
      rw [List.length_cons, ih ((x :: xs).drop k) hf']
      rw [List.length_drop]
      have hn : (x :: xs).length ≠ 0 := by simp
      rw [nat_ceil_div_shift (x :: xs).length k hk hn]
      by_cases hkn : k ≤ (x :: xs).length
      · congr 1
        congr 1
        omega
      · have h0 : (x :: xs).length - k = 0 := by omega
        rw [h0]
        have h1 : (0 + k - 1) / k = 0 := Nat.div_eq_of_lt (by omega)
        have h2 : ((x :: xs).length - 1) / k = 0 := Nat.div_eq_of_lt (by omega)
        rw [h1, h2]

theorem chunks_length {α : Type} (k : ℕ) (hk : k ≠ 0) (l : List α) :
    (chunks k l).length = (l.length + k - 1) / k :=
  chunksAux_length k l.length hk l le_rfl

theorem chunksAux_mem_length {α : Type} (k fuel : ℕ) (hk : k ≠ 0) (l : List α)
    (c : List α) (hc : c ∈ chunksAux k fuel l) : c.length ≤ k ∧ c.length ≠ 0 := by
  induction fuel generalizing l with
  | zero =>
    cases l with
    | nil => simp [chunksAux_nil] at hc
    | cons x xs => simp [chunksAux] at hc
  | succ fuel ih =>
    cases l with
    | nil => simp [chunksAux_nil] at hc
    | cons x xs =>
      rw [chunksAux_cons] at hc
      rcases List.mem_cons.mp hc with h | h
      · subst h
        constructor
        · simp [List.length_take]
        · simp [List.length_take]
          omega
      · exact ih ((x :: xs).drop k) h

theorem chunksAux_full_of_not_last {α : Type} (k fuel : ℕ) (l : List α)
    (i : ℕ) (c : List α) (hc : (chunksAux k fuel l)[i]? = some c)
    (hi : i + 1 < (chunksAux k fuel l).length) : c.length = k := by
  induction fuel generalizing l i with
  | zero =>
    cases l with
    | nil => simp [chunksAux_nil] at hi
    | cons x xs => simp [chunksAux] at hi
  | succ fuel ih =>
    cases l with
    | nil => simp [chunksAux_nil] at hi
    | cons x xs =>
      rw [chunksAux_cons] at hc hi
      cases i with
      | zero =>
        have hrest : chunksAux k fuel ((x :: xs).drop k) ≠ [] := by
          intro h
          rw [h] at hi
          simp at hi
        have hdrop : (x :: xs).drop k ≠ [] := by
          intro h
          rw [h, chunksAux_nil] at hrest
          exact hrest rfl
        have hlen : k < (x :: xs).length := by
          by_contra hle
          exact hdrop (List.drop_eq_nil_of_le (by omega))
        simp at hc
        rw [← hc, List.length_take]
        omega
      | succ i =>
        simp only [List.getElem?_cons_succ] at hc
        simp only [List.length_cons] at hi
        exact ih ((x :: xs).drop k) i hc (by omega)

theorem chunks_full_of_not_last {α : Type} (k : ℕ) (l : List α)
    (i : ℕ) (c : List α) (hc : (chunks k l)[i]? = some c)
    (hi : i + 1 < (chunks k l).length) : c.length = k :=
  chunksAux_full_of_not_last k l.length l i c hc hi

theorem pairedImages_nil : pairedImages [] = [] := rfl

theorem pairedImages_cons (x : ProjectImage) (xs : List ProjectImage) :
    pairedImages (x :: xs) = x :: x :: pairedImages xs := rfl

theorem pairedImages_length (l : List ProjectImage) :
    (pairedImages l).length = 2 * l.length := by
  induction l with
  | nil => rfl
  | cons x xs ih =>
    rw [pairedImages_cons]
    simp [ih]
    omega

theorem pairedImages_getElem_even (l : List ProjectImage) (i : ℕ) :
    (pairedImages l)[2 * i]? = l[i]? := by
  induction l generalizing i with
  | nil => simp [pairedImages_nil]
  | cons x xs ih =>
    rw [pairedImages_cons]
    cases i with
    | zero => simp
    | succ i =>
      have h : 2 * (i + 1) = 2 * i + 1 + 1 := by omega
      rw [h]
      simp only [List.getElem?_cons_succ]
      exact ih i

theorem pairedImages_getElem_odd (l : List ProjectImage) (i : ℕ) :
    (pairedImages l)[2 * i + 1]? = l[i]? := by
  induction l generalizing i with
  | nil => simp [pairedImages_nil]
  | cons x xs ih =>
    rw [pairedImages_cons]
    cases i with
    | zero => simp
    | succ i =>
      have h : 2 * (i + 1) + 1 = 2 * i + 1 + 1 + 1 := by omega
      rw [h]
      simp only [List.getElem?_cons_succ]
      exact ih i

theorem pairedImages_countP (p : ProjectImage → Bool) (l : List ProjectImage) :
    (pairedImages l).countP p = 2 * l.countP p := by
  induction l with
  | nil => rfl
  | cons x xs ih =>
    rw [pairedImages_cons]
    simp [List.countP_cons, ih]
    by_cases h : p x = true
    · simp [h]
      omega
    · simp [h]

theorem planCells_length (cfg : LayoutConfigEntry) (idx : ℕ)
    (l : List ProjectImage) : (planCells cfg idx l).length = l.length := by
  induction l generalizing idx with
  | nil => rfl
  | cons x xs ih => simp [planCells, ih]

theorem planCells_map_image (cfg : LayoutConfigEntry) (idx : ℕ)
    (l : List ProjectImage) :
    (planCells cfg idx l).map (fun a => a.image) = l := by
  induction l generalizing idx with
  | nil => rfl
  | cons x xs ih => simp [planCells, placeCard, ih]

theorem planCells_getElem (cfg : LayoutConfigEntry) (idx : ℕ)
    (l : List ProjectImage) (i : ℕ) :
    (planCells cfg idx l)[i]? = (l[i]?).map (placeCard cfg (idx + i)) := by
  induction l generalizing idx i with
  | nil => simp [planCells]
  | cons x xs ih =>
    cases i with
    | zero => simp [planCells]
    | succ i =>
      have h : idx + 1 + i = idx + (i + 1) := by omega
      simp only [planCells, List.getElem?_cons_succ, ih (idx + 1) i, h]

theorem planPage_getElem (cfg : LayoutConfigEntry) (slice : List ProjectImage)
    (i : ℕ) : (planPage cfg slice)[i]? = (slice[i]?).map (placeCard cfg i) := by
  rw [planPage, planCells_getElem]
  simp

theorem buildPagePlan_join_image (cfg : LayoutConfigEntry)
    (images : List ProjectImage) (hk : cfg.rows * cfg.cols ≠ 0) :
    ((buildPagePlan cfg images).flatten).map (fun a => a.image) =
      pairedImages images := by
  rw [buildPagePlan, List.map_flatten, List.map_map]
  have h : (planPage cfg · |>.map (fun a => a.image)) ∘ id =
      fun s => (planPage cfg s).map (fun a => a.image) := rfl
  calc ((chunks (cfg.rows * cfg.cols) (pairedImages images)).map
          (List.map (fun a => a.image) ∘ planPage cfg)).flatten
      = ((chunks (cfg.rows * cfg.cols) (pairedImages images)).map id).flatten := by
        congr 1
        apply List.map_congr_left
        intro s _
        exact planCells_map_image cfg 0 s
    _ = pairedImages images := by
        rw [List.map_id]
        exact chunks_join _ hk _

theorem cardsPerPage_ne_zero (lo : LayoutOption) :
    (layoutConfig lo).rows * (layoutConfig lo).cols ≠ 0 := by
  cases lo <;> decide

theorem renderPages_ok_length (render : ProjectImage → ℤ → Except RenderError Raster)
    (px : ℤ) (cfg : LayoutConfigEntry) (plan : List (List CellAssignment))
    (doc : PdfDoc) (h : renderPages render px cfg plan = .ok doc) :
    doc.length = plan.length := by
  induction plan generalizing doc with
  | nil =>
    rw [renderPages] at h
    rw [← Except.ok.injEq _ _ |>.mp h]
    rfl
  | cons page rest ih =>
    rw [renderPages] at h
    cases hc : renderCells render px cfg.cardSizeMm page with
    | error e => rw [hc] at h; exact Except.noConfusion h
    | ok ds =>
      rw [hc] at h
      cases hr : renderPages render px cfg rest with
      | error e => rw [hr] at h; exact Except.noConfusion h
      | ok pages =>
        rw [hr] at h
        rw [← Except.ok.injEq _ _ |>.mp h]
        simp [ih pages hr]

/-! ### Claim theorems -/

/-- C3: with no crop state, the crop geometry resolution defaults to the
largest centered square of the unrotated `w × h` image — `size = min w h`,
`x = (w - size)/2`, `y = (h - size)/2`, rotation `0`; for `w = 400`,
`h = 300` it yields `{x := 50, y := 0, width := 300, height := 300}` and
rotation `0`. -/
theorem default_crop_geometry :
    (∀ w h : ℚ, resolveCropAreaPixels w h none =
      { x := (w - min w h) / 2
        y := (h - min w h) / 2
        width := min w h
        height := min w h })
    ∧ resolveRotation none = 0
    ∧ resolveCropAreaPixels 400 300 none =
        { x := 50, y := 0, width := 300, height := 300 } := by
  refine ⟨fun w h => rfl, rfl, ?_⟩
  rw [resolveCropAreaPixels]
  norm_num [min_def]

/-- C5: the pixel conversion returns `(lengthMm / 25.4) * density` rounded to
the nearest integer (at most half a unit away), with the density fixed at
`300`, and the document-unit conversion returns exactly
`(lengthMm / 25.4) * 72` with no rounding. -/
theorem unit_conversion_formulas :
    dpi = 300
    ∧ (∀ mm : ℚ, mmToPx mm = ⌊mm / (254/10) * 300 + 1/2⌋)
    ∧ (∀ mm : ℚ, |(mmToPx mm : ℚ) - mm / (254/10) * 300| ≤ 1/2)
    ∧ (∀ mm : ℚ, mmToPt mm = mm / (254/10) * 72) := by
  refine ⟨rfl, fun mm => rfl, fun mm => ?_, fun mm => rfl⟩
  set q : ℚ := mm / (254/10) * 300 with hq
  have h1 : ((⌊q + 1/2⌋ : ℤ) : ℚ) ≤ q + 1/2 := Int.floor_le _
  have h2 : (q + 1/2) - 1 < ((⌊q + 1/2⌋ : ℤ) : ℚ) := Int.sub_one_lt_floor _
  have hx : (mmToPx mm : ℚ) = ((⌊q + 1/2⌋ : ℤ) : ℚ) := by
    rw [mmToPx, jsRound, dpi, hq]
  rw [hx]
  rw [abs_le]
  constructor <;> linarith

/-- Closed-form for `mmToPt`: multiplication by the constant `360/127`. -/
theorem mmToPt_eq_mul (mm : ℚ) : mmToPt mm = mm * (360/127) := by
  rw [mmToPt]
  ring

/-- C6: both conversions are monotonic in the input length, and the
document-unit conversion preserves ratios exactly whenever `L1 ≠ 0`. -/
theorem unit_conversion_monotone_ratio :
    (∀ L1 L2 : ℚ, L1 ≤ L2 → mmToPx L1 ≤ mmToPx L2)
    ∧ (∀ L1 L2 : ℚ, L1 ≤ L2 → mmToPt L1 ≤ mmToPt L2)
    ∧ (∀ L1 L2 : ℚ, L1 ≠ 0 → mmToPt L2 / mmToPt L1 = L2 / L1) := by
  refine ⟨fun L1 L2 h => ?_, fun L1 L2 h => ?_, fun L1 L2 h1 => ?_⟩
  · rw [mmToPx, mmToPx, jsRound, jsRound]
    apply Int.floor_le_floor
    rw [dpi]
    linarith
  · rw [mmToPt_eq_mul, mmToPt_eq_mul]
    linarith
  · rw [mmToPt_eq_mul, mmToPt_eq_mul,
      mul_div_mul_right L2 L1 (show (360/127 : ℚ) ≠ 0 by norm_num)]

/-- Witness for C6 at `L1 = 1`, `L2 = 2`. -/
theorem unit_conversion_monotone_ratio_witness :
    mmToPx 1 ≤ mmToPx 2 ∧ mmToPt 1 ≤ mmToPt 2 ∧ mmToPt 2 / mmToPt 1 = 2 / 1 :=
  ⟨unit_conversion_monotone_ratio.1 1 2 (by norm_num),
   unit_conversion_monotone_ratio.2.1 1 2 (by norm_num),
   unit_conversion_monotone_ratio.2.2 1 2 (by norm_num)⟩

/-- C1: for a non-empty image list of length `N` and the selected template
with grid `rows × cols`, the export produces exactly
`⌈2N / (rows*cols)⌉` pages: the duplicated sequence is consumed in
consecutive chunks of `cardsPerPage = rows * cols`, one page per chunk, every
chunk non-empty and at most `cardsPerPage` long, and every chunk except
possibly the last exactly `cardsPerPage` long. -/
theorem pdf_export_page_count (project : Project) (h : project.images ≠ []) :
    (buildPagePlan (layoutConfig project.layout) project.images).length =
      (2 * project.images.length +
        (layoutConfig project.layout).rows * (layoutConfig project.layout).cols - 1) /
        ((layoutConfig project.layout).rows * (layoutConfig project.layout).cols)
    ∧ (buildPagePlan (layoutConfig project.layout) project.images).map
        (fun page => page.map (fun a => a.image)) =
        chunks ((layoutConfig project.layout).rows * (layoutConfig project.layout).cols)
          (pairedImages project.images)
    ∧ (∀ page ∈ buildPagePlan (layoutConfig project.layout) project.images,
        page.length ≤ (layoutConfig project.layout).rows * (layoutConfig project.layout).cols
        ∧ page.length ≠ 0)
    ∧ (∀ (i : ℕ) (page : List CellAssignment),
        (buildPagePlan (layoutConfig project.layout) project.images)[i]? = some page →
        i + 1 < (buildPagePlan (layoutConfig project.layout) project.images).length →
        page.length =
          (layoutConfig project.layout).rows * (layoutConfig project.layout).cols)
    ∧ (∀ (render : ProjectImage → ℤ → Except RenderError Raster) (doc : PdfDoc),
        handleExportPdf render project = some (.ok doc) →
        doc.length =
          (buildPagePlan (layoutConfig project.layout) project.images).length) := by
  set cfg := layoutConfig project.layout with hcfg
  have hk : cfg.rows * cfg.cols ≠ 0 := cardsPerPage_ne_zero project.layout
  refine ⟨?_, ?_, ?_, ?_, ?_⟩
  · rw [buildPagePlan, List.length_map,
      chunks_length _ hk _, pairedImages_length]
  · rw [buildPagePlan, List.map_map]
    have : ∀ s ∈ chunks (cfg.rows * cfg.cols) (pairedImages project.images),
        ((fun page => page.map fun a => a.image) ∘ planPage cfg) s = s := by
      intro s _
      exact planCells_map_image cfg 0 s
    rw [List.map_congr_left this]
    exact List.map_id' _
  · intro page hpage
    rw [buildPagePlan, List.mem_map] at hpage
    obtain ⟨s, hs, rfl⟩ := hpage
    rw [planPage, planCells_length]
    exact chunksAux_mem_length _ _ hk _ _ hs
  · intro i page hp hi
    rw [buildPagePlan] at hp hi
    rw [List.getElem?_map] at hp
    rw [List.length_map] at hi
    cases hs : (chunks (cfg.rows * cfg.cols) (pairedImages project.images))[i]? with
    | none => rw [hs] at hp; exact Option.noConfusion hp
    | some s =>
      rw [hs] at hp
      simp only [Option.map_some'] at hp
      rw [← Option.some.injEq _ _ |>.mp hp, planPage, planCells_length]
      exact chunks_full_of_not_last _ _ i s hs hi
  · intro render doc hdoc
    have hval : handleExportPdf render project =
        some (renderPages render (mmToPx cfg.cardSizeMm) cfg
          (buildPagePlan cfg project.images)) := by
      rw [handleExportPdf, if_neg h]
    rw [hval] at hdoc
    exact renderPages_ok_length render (mmToPx cfg.cardSizeMm) cfg
      (buildPagePlan cfg project.images) doc (Option.some.injEq _ _ |>.mp hdoc)

/-- A minimal stand-in source image used only by concrete witnesses. -/
def witnessImage (id : String) : ProjectImage :=
  { id := id, name := id, type := "image/png", size := 0, blob := ([] : List ℕ) }

/-- A four-image project on the six-card template, the spec's own example
(`N = 4`, `rows*cols = 6`). -/
def witnessProject : Project :=
  { id := "p"
    name := "P"
    createdAt := "2024-01-01"
    note := ""
    layout := .l6
    images := [witnessImage "a", witnessImage "b", witnessImage "c", witnessImage "d"] }

/-- Witness for C1: the spec example `N = 4`, `rows*cols = 6` gives
`⌈8/6⌉ = 2` pages. -/
theorem pdf_export_page_count_witness :
    (buildPagePlan (layoutConfig witnessProject.layout) witnessProject.images).length =
      (2 * witnessProject.images.length +
        (layoutConfig witnessProject.layout).rows * (layoutConfig witnessProject.layout).cols - 1) /
        ((layoutConfig witnessProject.layout).rows * (layoutConfig witnessProject.layout).cols)
    ∧ (2 * witnessProject.images.length +
        (layoutConfig witnessProject.layout).rows * (layoutConfig witnessProject.layout).cols - 1) /
        ((layoutConfig witnessProject.layout).rows * (layoutConfig witnessProject.layout).cols) = 2 :=
  ⟨(pdf_export_page_count witnessProject (by decide)).1, by decide⟩

/-- C2: the working sequence is exactly `[img1, img1, img2, img2, …]` — entry
`2i` and entry `2i+1` are both image `i`, and the sequence has length `2N` —
and consequently the occurrences of an image id across all cell assignments of
the whole page plan double its occurrences in the image list; in particular an
id held by exactly one image appears in exactly two cell assignments. -/
theorem paired_duplication :
    (∀ (l : List ProjectImage) (i : ℕ),
      (pairedImages l).length = 2 * l.length
      ∧ (pairedImages l)[2 * i]? = l[i]?
      ∧ (pairedImages l)[2 * i + 1]? = l[i]?)
    ∧ (∀ (project : Project) (tid : String),
        ((buildPagePlan (layoutConfig project.layout) project.images).flatten.countP
          (fun a => a.image.id == tid)) =
        2 * project.images.countP (fun img => img.id == tid))
    ∧ (∀ (project : Project) (img : ProjectImage), img ∈ project.images →
        project.images.countP (fun i => i.id == img.id) = 1 →
        ((buildPagePlan (layoutConfig project.layout) project.images).flatten.countP
          (fun a => a.image.id == img.id)) = 2) := by
  have hcount : ∀ (project : Project) (tid : String),
      ((buildPagePlan (layoutConfig project.layout) project.images).flatten.countP
        (fun a => a.image.id == tid)) =
      2 * project.images.countP (fun img => img.id == tid) := by
    intro project tid
    have h1 := buildPagePlan_join_image (layoutConfig project.layout) project.images
      (cardsPerPage_ne_zero project.layout)
    have h2 := List.countP_map (fun img : ProjectImage => img.id == tid)
      (fun a : CellAssignment => a.image)
      (buildPagePlan (layoutConfig project.layout) project.images).flatten
    rw [h1, pairedImages_countP] at h2
    exact h2.symm
  refine ⟨fun l i => ⟨pairedImages_length l, pairedImages_getElem_even l i,
    pairedImages_getElem_odd l i⟩, hcount, fun project img _hmem hone => ?_⟩
  rw [hcount project img.id, hone]

/-- Witness for C2: in the four-image witness project, image "a" appears in
exactly two cell assignments of the plan. -/
theorem paired_duplication_witness :
    (buildPagePlan (layoutConfig witnessProject.layout) witnessProject.images).flatten.countP
      (fun a => a.image.id == (witnessImage "a").id) = 2 :=
  paired_duplication.2.2 witnessProject (witnessImage "a") (by decide) (by decide)

/-- C4: within a page, chunk index `i` is assigned to grid cell
`(row = i / cols, col = i % cols)` in row-major order; the physical
y-coordinate placed into the bottom-left-origin document is
`mmToPt ((rows - 1 - row) * cardSizeMm)`, computed from the inverted row, so
that a smaller logical row receives a strictly larger y — logical row 0 is
the top row of the printed page. -/
theorem grid_assignment_row_inversion :
    (∀ (cfg : LayoutConfigEntry) (slice : List ProjectImage) (i : ℕ),
      (planPage cfg slice)[i]? = (slice[i]?).map (placeCard cfg i))
    ∧ (∀ (cfg : LayoutConfigEntry) (i : ℕ) (img : ProjectImage),
        (placeCard cfg i img).row = i / cfg.cols
        ∧ (placeCard cfg i img).col = i % cfg.cols
        ∧ (placeCard cfg i img).xMm = ((i % cfg.cols : ℕ) : ℚ) * cfg.cardSizeMm
        ∧ (placeCard cfg i img).yMm =
            (((cfg.rows : ℤ) - 1 - ((i / cfg.cols : ℕ) : ℤ) : ℤ) : ℚ) * cfg.cardSizeMm)
    ∧ (∀ (render : ProjectImage → ℤ → Except RenderError Raster) (px : ℤ) (cmm : ℚ)
        (a : CellAssignment) (d : DrawnImage),
        renderCell render px cmm a = .ok d →
        d.x = mmToPt a.xMm ∧ d.y = mmToPt a.yMm)
    ∧ (∀ (cfg : LayoutConfigEntry) (r1 r2 : ℕ),
        r1 < r2 → r2 < cfg.rows → 0 < cfg.cardSizeMm →
        (((cfg.rows : ℤ) - 1 - (r2 : ℤ) : ℤ) : ℚ) * cfg.cardSizeMm <
          (((cfg.rows : ℤ) - 1 - (r1 : ℤ) : ℤ) : ℚ) * cfg.cardSizeMm) := by
  refine ⟨planPage_getElem, fun cfg i img => ⟨rfl, rfl, rfl, rfl⟩,
    fun render px cmm a d hd => ?_, fun cfg r1 r2 h12 h2r hcard => ?_⟩
  · cases hr : render a.image px with
    | error e => rw [renderCell, hr] at hd; exact Except.noConfusion hd
    | ok raster =>
      rw [renderCell, hr] at hd
      have hd' : Except.ok (ε := RenderError)
          { png := raster, x := mmToPt a.xMm, y := mmToPt a.yMm,
            width := mmToPt cmm, height := mmToPt cmm } = Except.ok d := hd
      rw [← Except.ok.injEq _ _ |>.mp hd']
      exact ⟨rfl, rfl⟩
  · apply mul_lt_mul_of_pos_right _ hcard
    have : ((cfg.rows : ℤ) - 1 - (r2 : ℤ)) < ((cfg.rows : ℤ) - 1 - (r1 : ℤ)) := by omega
    exact_mod_cast this

/-- Witness for C4 at the six-card template (`rows = 3, cols = 2`),
card index 3 and rows 0 < 1. -/
theorem grid_assignment_row_inversion_witness :
    ((planPage (layoutConfig .l6) [witnessImage "a"])[0]? =
      ([witnessImage "a"][0]?).map (placeCard (layoutConfig .l6) 0))
    ∧ (placeCard (layoutConfig .l6) 3 (witnessImage "a")).row = 3 / (layoutConfig .l6).cols
    ∧ ((((layoutConfig .l6).rows : ℤ) - 1 - (1 : ℤ) : ℤ) : ℚ) * (layoutConfig .l6).cardSizeMm <
        ((((layoutConfig .l6).rows : ℤ) - 1 - (0 : ℤ) : ℤ) : ℚ) * (layoutConfig .l6).cardSizeMm :=
  ⟨grid_assignment_row_inversion.1 (layoutConfig .l6) [witnessImage "a"] 0,
   (grid_assignment_row_inversion.2.1 (layoutConfig .l6) 3 (witnessImage "a")).1,
   grid_assignment_row_inversion.2.2.2 (layoutConfig .l6) 0 1 (by norm_num)
     (by norm_num [layoutConfig]) (by norm_num [layoutConfig])⟩

/-- If some cell of the list has a failing render, the sequential cell
rendering returns the error of a failing cell. -/
theorem renderCells_error (render : ProjectImage → ℤ → Except RenderError Raster)
    (px : ℤ) (cmm : ℚ) (l : List CellAssignment)
    (hfail : ∃ a ∈ l, ∃ e, render a.image px = .error e) :
    ∃ e, renderCells render px cmm l = .error e
      ∧ ∃ a ∈ l, render a.image px = .error e := by
  induction l with
  | nil =>
    obtain ⟨a, ha, _⟩ := hfail
    exact absurd ha (List.not_mem_nil a)
  | cons a rest ih =>
    cases hr : render a.image px with
    | error e =>
      refine ⟨e, ?_, a, List.mem_cons_self a rest, hr⟩
      rw [renderCells, renderCell, hr]
    | ok raster =>
      have hrest : ∃ b ∈ rest, ∃ e, render b.image px = .error e := by
        obtain ⟨b, hb, e, he⟩ := hfail
        rcases List.mem_cons.mp hb with rfl | hb'
        · rw [hr] at he
          exact Except.noConfusion he
        · exact ⟨b, hb', e, he⟩
      obtain ⟨e, h1, b, hb, he⟩ := ih hrest
      refine ⟨e, ?_, b, List.mem_cons_of_mem a hb, he⟩
      rw [renderCells, renderCell, hr, h1]

/-- If no cell of the list has a failing render, the sequential cell
rendering succeeds. -/
theorem renderCells_ok (render : ProjectImage → ℤ → Except RenderError Raster)
    (px : ℤ) (cmm : ℚ) (l : List CellAssignment)
    (h : ∀ a ∈ l, ∀ e, render a.image px ≠ .error e) :
    ∃ ds, renderCells render px cmm l = .ok ds := by
  induction l with
  | nil => exact ⟨[], rfl⟩
  | cons a rest ih =>
    cases hr : render a.image px with
    | error e => exact absurd hr (h a (List.mem_cons_self a rest) e)
    | ok raster =>
      obtain ⟨ds, hds⟩ := ih fun b hb e => h b (List.mem_cons_of_mem a hb) e
      exact ⟨_, by rw [renderCells, renderCell, hr, hds]⟩

/-- If some cell of some page has a failing render, sequential page assembly
returns the error of a failing cell. -/
theorem renderPages_error (render : ProjectImage → ℤ → Except RenderError Raster)
    (px : ℤ) (cfg : LayoutConfigEntry) (plan : List (List CellAssignment))
    (hfail : ∃ page ∈ plan, ∃ a ∈ page, ∃ e, render a.image px = .error e) :
    ∃ e, renderPages render px cfg plan = .error e
      ∧ ∃ page ∈ plan, ∃ a ∈ page, render a.image px = .error e := by
  induction plan with
  | nil =>
    obtain ⟨p, hp, _⟩ := hfail
    exact absurd hp (List.not_mem_nil p)
  | cons page rest ih =>
    by_cases hpage : ∃ a ∈ page, ∃ e, render a.image px = .error e
    · obtain ⟨e, h1, a, ha, he⟩ := renderCells_error render px cfg.cardSizeMm page hpage
      refine ⟨e, ?_, page, List.mem_cons_self page rest, a, ha, he⟩
      rw [renderPages, h1]
    · have hrest : ∃ p ∈ rest, ∃ a ∈ p, ∃ e, render a.image px = .error e := by
        obtain ⟨p, hp, hfp⟩ := hfail
        rcases List.mem_cons.mp hp with rfl | hp'
        · exact absurd hfp hpage
        · exact ⟨p, hp', hfp⟩
      obtain ⟨ds, hds⟩ := renderCells_ok render px cfg.cardSizeMm page
        (by push_neg at hpage; exact fun a ha e he => hpage a ha e he)
      obtain ⟨e, h1, p', hp', hfp'⟩ := ih hrest
      refine ⟨e, ?_, p', List.mem_cons_of_mem page hp', hfp'⟩
      rw [renderPages, hds, h1]

/-- C7: if any tile's rendering step fails, the whole PDF export aborts with
a failing tile's error and no output document is ever produced. -/
theorem export_aborts_on_render_failure
    (render : ProjectImage → ℤ → Except RenderError Raster) (project : Project)
    (hne : project.images ≠ [])
    (hfail : ∃ page ∈ buildPagePlan (layoutConfig project.layout) project.images,
      ∃ a ∈ page, ∃ e,
        render a.image (mmToPx (layoutConfig project.layout).cardSizeMm) = .error e) :
    ∃ e, handleExportPdf render project = some (.error e)
      ∧ (∃ page ∈ buildPagePlan (layoutConfig project.layout) project.images,
          ∃ a ∈ page,
            render a.image (mmToPx (layoutConfig project.layout).cardSizeMm) = .error e)
      ∧ ∀ doc, handleExportPdf render project ≠ some (.ok doc) := by
  obtain ⟨e, h1, hsrc⟩ := renderPages_error render
    (mmToPx (layoutConfig project.layout).cardSizeMm) (layoutConfig project.layout)
    (buildPagePlan (layoutConfig project.layout) project.images) hfail
  have hval : handleExportPdf render project =
      some (renderPages render (mmToPx (layoutConfig project.layout).cardSizeMm)
        (layoutConfig project.layout)
        (buildPagePlan (layoutConfig project.layout) project.images)) := by
    rw [handleExportPdf, if_neg hne]
  refine ⟨e, ?_, hsrc, ?_⟩
  · rw [hval, h1]
  · intro doc hdoc
    rw [hval, h1] at hdoc
    exact Except.noConfusion (Option.some.injEq _ _ |>.mp hdoc)

/-- Witness for C7: a decode failure on every tile makes the export of the
four-image witness project return an error and never a document. -/
theorem export_aborts_on_render_failure_witness :
    ∃ e, handleExportPdf (fun _ _ => .error .imageDecodeFailed) witnessProject =
        some (.error e)
      ∧ ∀ doc, handleExportPdf (fun _ _ => .error .imageDecodeFailed) witnessProject ≠
        some (.ok doc) := by
  obtain ⟨e, h1, _, h3⟩ := export_aborts_on_render_failure
    (fun _ _ => .error .imageDecodeFailed) witnessProject (by decide)
    ⟨_, List.mem_cons_self _ _, _, List.mem_cons_self _ _, .imageDecodeFailed, rfl⟩
  exact ⟨e, h1, h3⟩

/-- C8: whatever crop rectangle is supplied — malformed, out of bounds or
zero-area — tile rendering with a working environment (decode, 2D context and
encode all available) does not fail and returns a square raster of exactly
`outputSizePx × outputSizePx`; a zero-width crop yields an all-background
(blank) raster. -/
theorem render_tolerates_malformed_rect (img : Raster) (rotated : Raster → ℚ → Raster)
    (crop : Option ImageCrop) (size : ℕ) :
    (∃ out, renderCroppedImage (some img) true rotated true crop size = .ok out
      ∧ out.width = size ∧ out.height = size)
    ∧ (∀ rect, (crop.bind fun c => c.cropAreaPixels) = some rect → rect.width = 0 →
        ∀ i j : ℕ,
          (cropAndScale (rotated img (resolveRotation crop))
            (resolveCropAreaPixels (img.width : ℚ) (img.height : ℚ) crop) size).pixel i j =
            backgroundPixel) := by
  constructor
  · exact ⟨_, rfl, rfl, rfl⟩
  · intro rect hrect hw i j
    have hres : resolveCropAreaPixels (img.width : ℚ) (img.height : ℚ) crop = rect := by
      rw [resolveCropAreaPixels, hrect]
    rw [hres]
    simp [cropAndScale, hw]

/-- A tiny raster used only by concrete witnesses. -/
def wRaster : Raster := { width := 2, height := 2, pixel := fun _ _ => 7 }

/-- An identity stand-in for the rotated-canvas draw, used by witnesses. -/
def wRotated : Raster → ℚ → Raster := fun r _ => r

/-- A crop state with a malformed zero-width, out-of-bounds rectangle. -/
def wMalformedCrop : Option ImageCrop :=
  some { x := 0, y := 0, zoom := 1, rotation := 0,
         cropAreaPixels := some { x := -100, y := -100, width := 0, height := 50 } }

/-- Witness for C8: the malformed zero-width rectangle still renders to an
`ok` square of size 4, blank at pixel (0,0). -/
theorem render_tolerates_malformed_rect_witness :
    (∃ out, renderCroppedImage (some wRaster) true wRotated true wMalformedCrop 4 = .ok out
      ∧ out.width = 4 ∧ out.height = 4)
    ∧ (cropAndScale (wRotated wRaster (resolveRotation wMalformedCrop))
        (resolveCropAreaPixels (wRaster.width : ℚ) (wRaster.height : ℚ) wMalformedCrop)
        4).pixel 0 0 = backgroundPixel :=
  ⟨(render_tolerates_malformed_rect wRaster wRotated wMalformedCrop 4).1,
   (render_tolerates_malformed_rect wRaster wRotated wMalformedCrop 4).2
     { x := -100, y := -100, width := 0, height := 50 } rfl rfl 0 0⟩

/-- C9: the JSON project export writes a `layout` field equal to the constant
default (`6`) for every project, whatever the selected layout; hence an
export/import round trip of a project whose layout is `12` restores layout
`6`, not `12`. -/
theorem export_layout_constant :
    (∀ p : Project, (handleExportProject p).layout = layoutValue
      ∧ layoutValue = LayoutOption.l6)
    ∧ (∀ p : Project, p.layout = LayoutOption.l12 →
        (handleImportProject (handleExportProject p)).layout = LayoutOption.l6
        ∧ (handleImportProject (handleExportProject p)).layout ≠ p.layout) := by
  refine ⟨fun p => ⟨rfl, rfl⟩, fun p hp => ⟨rfl, ?_⟩⟩
  rw [hp]
  exact fun h => LayoutOption.noConfusion h

/-- The witness project with layout 12 selected. -/
def witnessProject12 : Project := { witnessProject with layout := LayoutOption.l12 }

/-- Witness for C9 at a concrete project with layout 12. -/
theorem export_layout_constant_witness :
    (handleImportProject (handleExportProject witnessProject12)).layout = LayoutOption.l6
    ∧ (handleImportProject (handleExportProject witnessProject12)).layout ≠
        witnessProject12.layout :=
  export_layout_constant.2 witnessProject12 rfl

/-- C10: the crop-update operation changes only the `crop` field of the
images whose id matches (to the merge of defaults, existing crop, then
patch); every other image, the list order and length, and the project's
`id`, `name`, `createdAt`, `note` and `layout` are unchanged; if no image has
the id, the project is unchanged. -/
theorem crop_update_frame (p : Project) (id : String) (u : CropPatch) :
    (handleCropUpdate p id u).id = p.id
    ∧ (handleCropUpdate p id u).name = p.name
    ∧ (handleCropUpdate p id u).createdAt = p.createdAt
    ∧ (handleCropUpdate p id u).note = p.note
    ∧ (handleCropUpdate p id u).layout = p.layout
    ∧ (handleCropUpdate p id u).images.length = p.images.length
    ∧ (∀ i : ℕ, (handleCropUpdate p id u).images[i]? =
        (p.images[i]?).map fun img =>
          if img.id = id then { img with crop := some (mergeCrop img.crop u) } else img)
    ∧ (∀ (i : ℕ) (img img' : ProjectImage),
        p.images[i]? = some img →
        (handleCropUpdate p id u).images[i]? = some img' →
        img'.id = img.id ∧ img'.name = img.name ∧ img'.type = img.type
        ∧ img'.size = img.size ∧ img'.blob = img.blob
        ∧ (img.id ≠ id → img' = img)
        ∧ (img.id = id → img'.crop = some (mergeCrop img.crop u)))
    ∧ ((∀ img ∈ p.images, img.id ≠ id) → handleCropUpdate p id u = p) := by
  have hmap : ∀ i : ℕ, (handleCropUpdate p id u).images[i]? =
      (p.images[i]?).map fun img =>
        if img.id = id then { img with crop := some (mergeCrop img.crop u) } else img :=
    fun i => List.getElem?_map ..
  refine ⟨rfl, rfl, rfl, rfl, rfl, List.length_map .., hmap, ?_, ?_⟩
  · intro i img img' h1 h2
    rw [hmap i, h1] at h2
    have h3 : img' =
        if img.id = id then { img with crop := some (mergeCrop img.crop u) } else img :=
      (Option.some.injEq _ _ |>.mp h2).symm
    by_cases hid : img.id = id
    · rw [h3, if_pos hid]
      exact ⟨rfl, rfl, rfl, rfl, rfl, fun hc => absurd hid hc, fun _ => rfl⟩
    · rw [h3, if_neg hid]
      exact ⟨rfl, rfl, rfl, rfl, rfl, fun _ => rfl, fun hc => absurd hc hid⟩
  · intro hall
    have himgs : (p.images.map fun image =>
        if image.id = id then { image with crop := some (mergeCrop image.crop u) }
        else image) = p.images := by
      rw [List.map_congr_left fun a ha => if_neg (hall a ha)]
      exact List.map_id' _
    rw [handleCropUpdate, himgs]

/-- Witness for C10: updating an id held by no image leaves the witness
project unchanged. -/
theorem crop_update_frame_witness :
    handleCropUpdate witnessProject "zz" { rotation := some 90 } = witnessProject :=
  (crop_update_frame witnessProject "zz"
    { rotation := some 90 }).2.2.2.2.2.2.2.2 (by decide)

end MemoryPdf
